import Mathlib

set_option maxHeartbeats 1000000

/-!
Verification of the selector-matching core of `src/style/selectormatcher.rs`.

The matcher's data model (`DomNode`, the selector AST) and two helper
operations (`child_index`, `NthExpr::matches`) live in the external
`magicparser` crate, which is not part of the sources; those parts are
modelled from the specification and carry a doc comment saying so.  The
matching functions themselves are translated directly from the Rust source.
-/

/-- Rust strings are modelled as lists of characters. -/
abbrev RStr := List Char

/-- Models Rust char::is_whitespace (the Unicode White_Space property),
which is also the splitting predicate of str::split_whitespace. -/
def isRustWhitespace (c : Char) : Bool :=
  decide (9 ≤ c.toNat ∧ c.toNat ≤ 13) || decide (c.toNat = 32) ||
  decide (c.toNat = 0x85) || decide (c.toNat = 0xA0) || decide (c.toNat = 0x1680) ||
  decide (0x2000 ≤ c.toNat ∧ c.toNat ≤ 0x200A) || decide (c.toNat = 0x2028) ||
  decide (c.toNat = 0x2029) || decide (c.toNat = 0x202F) || decide (c.toNat = 0x205F) ||
  decide (c.toNat = 0x3000)

/-- Models the per-character mapping underlying Rust str::to_lowercase.
Rust applies the full Unicode lowercase mapping; this model restricts the
table to the ASCII letters together with the Greek capital sigma exercised
in this development, and leaves every other character fixed. -/
def rustCharToLower (c : Char) : Char :=
  match c with
  | 'A' => 'a' | 'B' => 'b' | 'C' => 'c' | 'D' => 'd' | 'E' => 'e' | 'F' => 'f'
  | 'G' => 'g' | 'H' => 'h' | 'I' => 'i' | 'J' => 'j' | 'K' => 'k' | 'L' => 'l'
  | 'M' => 'm' | 'N' => 'n' | 'O' => 'o' | 'P' => 'p' | 'Q' => 'q' | 'R' => 'r'
  | 'S' => 's' | 'T' => 't' | 'U' => 'u' | 'V' => 'v' | 'W' => 'w' | 'X' => 'x'
  | 'Y' => 'y' | 'Z' => 'z'
  | 'Σ' => 'σ'
  | other => other

/-- Models Rust str::to_lowercase, lowercasing every character. -/
def rustToLowercase (s : RStr) : RStr := s.map rustCharToLower

/-- ASCII-range-only lowercase folding: the alternative folding discipline
that the code does NOT use, kept for comparison with `rustToLowercase`. -/
def asciiCharToLower (c : Char) : Char :=
  if 65 ≤ c.toNat ∧ c.toNat ≤ 90 then Char.ofNat (c.toNat + 32) else c

/-- ASCII-only lowercasing of a whole string, for comparison. -/
def asciiToLowercase (s : RStr) : RStr := s.map asciiCharToLower

/-- Models Rust str::split_whitespace: split on runs of Unicode whitespace,
discarding the empty fragments between consecutive separators. -/
def splitWhitespace (s : RStr) : List RStr :=
  (s.splitOnP isRustWhitespace).filter (fun w => !w.isEmpty)

/-- Models Rust str::contains with a string needle (substring search). -/
def containsSubstr : RStr → RStr → Bool
  | [], needle => needle.isEmpty
  | c :: t, needle => needle.isPrefixOf (c :: t) || containsSubstr t needle

/-- Modelled from the spec: the enumerated tag identity of the external node
model (magicparser's ElemType).  A few concrete tags plus an escape hatch
suffice for the matcher, which only ever compares tags for equality. -/
inductive ElemType where
  | A
  | P
  | Div
  | Custom (name : RStr)
  deriving DecidableEq

/-- Modelled from the spec: the two observations of a node's parent that the
matcher makes - the node's 1-based index among the parent's children (what
magicparser's child_index computes by an identity scan) and the length of
that children list. -/
structure ParentInfo where
  child_pos : Nat
  numSiblings : Nat
  deriving DecidableEq

/-- Modelled from the spec: the read-only view of a magicparser DomNode used
by the matcher: tag, optional id, class set, attribute map from name to
optional value, and the parent back-reference (abstracted to the position
and sibling-count observations). -/
structure DomNode where
  elem_type : ElemType
  id : Option RStr
  classes : List RStr
  attrs : List (RStr × Option RStr)
  parent : Option ParentInfo

/-- Modelled from the spec: magicparser's DomNodeRef::child_index - none for
a parentless node, otherwise the 1-based position among the parent's
children. -/
def DomNode.child_index (n : DomNode) : Option Nat :=
  n.parent.map ParentInfo.child_pos

/-- Simple selector AST node (magicparser), as described by the spec. -/
structure SimpleSelector where
  elem_type : Option ElemType
  id : Option RStr
  classes : List RStr
  universal : Bool

/-- The six attribute-comparison operators (magicparser's AttrSelectorOp). -/
inductive AttrSelectorOp where
  | Exactly
  | ExactlyOne
  | ExactlyOrHyphen
  | Prefixed
  | Suffixed
  | ContainsAtLeastOne
  deriving DecidableEq

/-- Attribute selector AST node (magicparser), as described by the spec. -/
structure AttrSelector where
  attr : RStr
  op_val : Option (AttrSelectorOp × RStr)
  case_insensitive : Bool

/-- The operator of an An+B nth-expression (magicparser's NthExprOp). -/
inductive NthExprOp where
  | Add
  | Subtract
  deriving DecidableEq

/-- Nth-expression AST (magicparser's NthExpr): a literal target position,
or the CSS An+B linear formula. -/
inductive NthExpr where
  | A (n : Int)
  | AnOpB (a : Int) (op : Option NthExprOp) (b : Int)
  deriving DecidableEq

/-- Modelled from the spec: the signed offset of an An+B formula - `b` when
the operator is Add, `-b` when Subtract, `0` when the operator is absent. -/
def signedOffset (op : Option NthExprOp) (b : Int) : Int :=
  match op with
  | some .Add => b
  | some .Subtract => -b
  | none => 0

/-- Modelled from the spec: magicparser's NthExpr::matches, deciding whether
a 1-based child position satisfies the expression.  `A n` holds exactly at
position `n`; `AnOpB a op b` with signed offset `s` holds when `a = 0` and
the position equals `s`, or when `a ≠ 0`, `a` exactly divides
`position - s`, and the quotient is nonnegative.  Exact integer arithmetic;
a non-integral quotient simply yields false. -/
def NthExpr.matches (e : NthExpr) (pos : Nat) : Bool :=
  match e with
  | .A n => (pos : Int) == n
  | .AnOpB a op b =>
    let s := signedOffset op b
    if a == 0 then (pos : Int) == s
    else ((pos : Int) - s) % a == 0 && decide (0 ≤ ((pos : Int) - s) / a)

mutual
/-- Selector AST (magicparser's Selector), as described by the spec: the
three variants the core handles, plus the combinator forms (modelled here by
Child and Descendant) that are out of scope for the matcher. -/
inductive Selector where
  | Simple (sel : SimpleSelector)
  | Attr (sel : AttrSelector)
  | Pseudo (sel : PseudoClassSelector)
  | Child (left right : Selector)
  | Descendant (left right : Selector)

/-- Pseudo-class selector AST (magicparser's PseudoClassSelector): the five
variants the core handles, plus a reserved-but-unimplemented variant
(modelled here by Hover) standing for the rest of the vocabulary. -/
inductive PseudoClassSelector where
  | Matches (sel : Selector)
  | Not (sel : Selector)
  | FirstChild
  | LastChild
  | NthChild (e : NthExpr)
  | Hover
end

/-- Outcome of one of the Rust matching functions: either a returned boolean
or a Rust panic (what executing the unimplemented macro does).  The Rust
signatures return a plain bool, so there is no non-panicking channel for an
"unsupported selector" value. -/
inductive MatchResult where
  | ok (b : Bool)
  | rustPanic
  deriving DecidableEq

/-- Translation of `matches_simple_selector` from the source.  Note that the
id constraint is only checked when BOTH the selector id and the node id are
present (the Rust `if let (Some(..), Some(..))` pattern): with a selector id
and no node id the check is skipped entirely. -/
def matches_simple_selector (node : DomNode) (sel : SimpleSelector) : Bool :=
  (match sel.elem_type with
   | some elem_type => elem_type == node.elem_type
   | none => true) &&
  (match sel.id, node.id with
   | some id, some dom_node_id => id == dom_node_id
   | _, _ => true) &&
  (sel.classes.isEmpty || sel.classes.all (fun c => node.classes.contains c))

/-- Translation of `matches_attr_selector` from the source.  The HashMap of
attributes is modelled as an association list with `List.lookup`; the word
HashSet built for ExactlyOne is modelled by list membership. -/
def matches_attr_selector (node : DomNode) (sel : AttrSelector) : Bool :=
  match sel.op_val with
  | some (op, val) =>
    match node.attrs.lookup sel.attr with
    | some (some attr_value) =>
      match op with
      | .Exactly =>
        if sel.case_insensitive then
          rustToLowercase attr_value == rustToLowercase val
        else
          attr_value == val
      | .ExactlyOne =>
        if sel.case_insensitive then
          ((splitWhitespace attr_value).map rustToLowercase).contains (rustToLowercase val)
        else
          (splitWhitespace attr_value).contains val
      | .ExactlyOrHyphen =>
        if sel.case_insensitive then
          (splitWhitespace attr_value).any (fun s =>
            rustToLowercase s == rustToLowercase val ||
            (rustToLowercase val ++ ['-']).isPrefixOf (rustToLowercase s))
        else
          (splitWhitespace attr_value).any (fun s =>
            s == val || (val ++ ['-']).isPrefixOf s)
      | .Prefixed =>
        if sel.case_insensitive then
          (rustToLowercase val).isPrefixOf (rustToLowercase attr_value)
        else
          val.isPrefixOf attr_value
      | .Suffixed =>
        if sel.case_insensitive then
          (rustToLowercase val).isSuffixOf (rustToLowercase attr_value)
        else
          val.isSuffixOf attr_value
      | .ContainsAtLeastOne =>
        if sel.case_insensitive then
          containsSubstr (rustToLowercase attr_value) (rustToLowercase val)
        else
          containsSubstr attr_value val
    | _ => false
  | none => (node.attrs.lookup sel.attr).isSome

/-- Translation of the dispatcher `matches` from the source (`matches` is a
reserved token in Lean, hence the name).  Only the Simple and Attr variants
are routed; every other variant - including Selector::Pseudo - falls into
the `_ => unimplemented` arm and panics. -/
def matchesSelector (dom_node : DomNode) (selector : Selector) : MatchResult :=
  match selector with
  | .Simple simple_sel => .ok (matches_simple_selector dom_node simple_sel)
  | .Attr attr_sel => .ok (matches_attr_selector dom_node attr_sel)
  | _ => .rustPanic

/-- Translation of `matches_pseudo_class_selector` from the source.  The
Matches and Not arms recurse through the dispatcher, so a panic there
propagates; the catch-all arm for reserved pseudo-classes panics. -/
def matches_pseudo_class_selector (dom_node : DomNode)
    (selector : PseudoClassSelector) : MatchResult :=
  match selector with
  | .Matches sel => matchesSelector dom_node sel
  | .Not sel =>
    match matchesSelector dom_node sel with
    | .ok b => .ok (!b)
    | .rustPanic => .rustPanic
  | .FirstChild => .ok (dom_node.child_index.getD 1 == 1)
  | .LastChild =>
    .ok (dom_node.child_index.getD 1 ==
      (match dom_node.parent with
       | some parent => parent.numSiblings
       | none => 1))
  | .NthChild e => .ok (e.matches (dom_node.child_index.getD 1))
  | .Hover => .rustPanic

/-- The spec's fold-before-split formulation of case-insensitive ExactlyOne:
lowercase the whole attribute value first, then split into words and test
membership of the lowercased compared value. -/
def foldThenSplitExactlyOne (v val : RStr) : Bool :=
  (splitWhitespace (rustToLowercase v)).contains (rustToLowercase val)

/-- The spec's fold-before-split formulation of case-insensitive
ExactlyOrHyphen: lowercase the whole attribute value first, then split and
test each word for equality with, or a hyphen-extended prefix of, the
lowercased compared value. -/
def foldThenSplitExactlyOrHyphen (v val : RStr) : Bool :=
  (splitWhitespace (rustToLowercase v)).any (fun s =>
    s == rustToLowercase val || (rustToLowercase val ++ ['-']).isPrefixOf s)

/-- Case-insensitive Exactly comparison under ASCII-only folding, the
discipline the code does not use; kept to contrast with the full Unicode
folding of `matches_attr_selector`. -/
def asciiExactlyCaseInsensitive (v val : RStr) : Bool :=
  asciiToLowercase v == asciiToLowercase val

/-- Lowercasing a character does not change whether it is whitespace: the
table maps whitespace to itself and letters to letters. -/
lemma rustCharToLower_whitespace (c : Char) :
    isRustWhitespace (rustCharToLower c) = isRustWhitespace c := by
  unfold rustCharToLower
  split <;> rfl

/-- Splitting on a predicate commutes with mapping a character function that
preserves the predicate. -/
lemma splitOnP_map_of_pres (p : Char → Bool) (f : Char → Char)
    (hf : ∀ c, p (f c) = p c) (l : List Char) :
    List.splitOnP p (l.map f) = (List.splitOnP p l).map (List.map f) := by
  induction l with
  | nil => simp [List.splitOnP_nil]
  | cons c t ih =>
    by_cases h : p c = true
    · simp [List.splitOnP_cons, hf, h, ih]
    · rcases hS : List.splitOnP p t with _ | ⟨w, ws⟩
      · exact absurd hS (List.splitOnP_ne_nil p t)
      · simp [List.splitOnP_cons, hf, h, ih, hS, List.modifyHead]

/-- Whitespace splitting commutes with Rust lowercasing: lowering the whole
string and then splitting gives the words of the original string, each
lowered.  This is the key algebraic fact behind the case-insensitive
word-based operators. -/
lemma splitWhitespace_rustToLowercase (v : RStr) :
    splitWhitespace (rustToLowercase v) = (splitWhitespace v).map rustToLowercase := by
  unfold splitWhitespace rustToLowercase
  rw [splitOnP_map_of_pres isRustWhitespace rustCharToLower rustCharToLower_whitespace]
  rw [List.filter_map]
  exact congrArg _ (List.filter_congr (fun w _ => by cases w <;> rfl))

/-- Claim C1 (code side): for selector variants outside the supported set -
combinator forms such as Child and Descendant, the whole Pseudo family in
the dispatcher, and reserved pseudo-classes such as Hover - the code panics
through the unimplemented macro instead of returning a recoverable
UnsupportedSelector outcome.  This theorem evaluates the translated code at
such selectors and records the panic, refuting the claim that no crash can
occur. -/
theorem unsupported_selector_variants_panic :
    matchesSelector ⟨.A, none, [], [], none⟩
        (.Child (.Simple ⟨none, none, [], true⟩) (.Simple ⟨none, none, [], true⟩)) = .rustPanic
    ∧ matchesSelector ⟨.A, none, [], [], none⟩
        (.Descendant (.Simple ⟨none, none, [], true⟩) (.Simple ⟨none, none, [], true⟩)) = .rustPanic
    ∧ matchesSelector ⟨.A, none, [], [], none⟩ (.Pseudo .Hover) = .rustPanic
    ∧ matches_pseudo_class_selector ⟨.A, none, [], [], none⟩ .Hover = .rustPanic :=
  ⟨rfl, rfl, rfl, rfl⟩

/-- Claim C2 (code side): the dispatcher does NOT route Selector::Pseudo to
the pseudo-class matcher - the Pseudo arm is missing and falls into the
panicking catch-all - even though the pseudo-class matcher itself returns a
boolean for the same selector.  This refutes the claimed routing. -/
theorem pseudo_variant_not_routed_panics :
    matchesSelector ⟨.A, none, [], [], none⟩ (.Pseudo .FirstChild) = .rustPanic
    ∧ matches_pseudo_class_selector ⟨.A, none, [], [], none⟩ .FirstChild = .ok true :=
  ⟨rfl, by decide⟩

/-- Claim C3 (code side): with an unset node id and a set selector id, the
simple-selector matcher SKIPS the id constraint (the Rust
`if let (Some, Some)` only compares when both ids are present) and here
returns true, contradicting the claim that it must return false. -/
theorem unset_node_id_skips_id_check :
    matches_simple_selector ⟨.A, none, [], [], none⟩
      ⟨none, some ("id1".toList), [], false⟩ = true := by decide

/-- Claim C4: with no operator/value pair the attribute selector matches
exactly when the attribute key is present (whatever its value slot holds),
and with an operator/value pair it fails whenever the key is absent or
present with an empty value slot. -/
theorem attr_presence_and_missing_value_semantics (node : DomNode) (sel : AttrSelector) :
    (sel.op_val = none →
      (matches_attr_selector node sel = true ↔ (node.attrs.lookup sel.attr).isSome = true))
    ∧ (∀ (op : AttrSelectorOp) (val : RStr), sel.op_val = some (op, val) →
        (node.attrs.lookup sel.attr = none ∨ node.attrs.lookup sel.attr = some none) →
        matches_attr_selector node sel = false) := by
  constructor
  · intro h
    simp [matches_attr_selector, h]
  · intro op val h habs
    rcases habs with h2 | h2 <;> simp [matches_attr_selector, h, h2]

/-- Witness for C4 on a node whose attribute map has key "k" with an empty
value slot: the presence-only selector matches, and an Exactly selector on
the same key fails. -/
theorem attr_presence_and_missing_value_semantics_witness :
    (matches_attr_selector ⟨.A, none, [], [("k".toList, none)], none⟩
        ⟨"k".toList, none, false⟩ = true
      ↔ ((⟨.A, none, [], [("k".toList, none)], none⟩ : DomNode).attrs.lookup
          ("k".toList)).isSome = true)
    ∧ matches_attr_selector ⟨.A, none, [], [("k".toList, none)], none⟩
        ⟨"k".toList, some (.Exactly, "x".toList), false⟩ = false :=
  ⟨(attr_presence_and_missing_value_semantics ⟨.A, none, [], [("k".toList, none)], none⟩
      ⟨"k".toList, none, false⟩).1 rfl,
   (attr_presence_and_missing_value_semantics ⟨.A, none, [], [("k".toList, none)], none⟩
      ⟨"k".toList, some (.Exactly, "x".toList), false⟩).2 .Exactly ("x".toList) rfl
      (Or.inr (by decide))⟩

/-- Claim C5: case-sensitive ExactlyOrHyphen on an attribute present with
value v matches exactly when some whitespace-delimited word of v equals the
compared value or starts with the compared value followed by a hyphen. -/
theorem exactly_or_hyphen_case_sensitive_iff (node : DomNode) (a v val : RStr)
    (h : node.attrs.lookup a = some (some v)) :
    matches_attr_selector node ⟨a, some (.ExactlyOrHyphen, val), false⟩ = true ↔
      ∃ w ∈ splitWhitespace v, w = val ∨ (val ++ ['-']).isPrefixOf w = true := by
  simp [matches_attr_selector, h, List.any_eq_true]

/-- Witness for C5 at attribute value "val-1": compared value "val" matches
(hyphen-prefixed word), "val-1" matches (exact), "val1" does not. -/
theorem exactly_or_hyphen_case_sensitive_iff_witness :
    ([(("attr".toList : RStr), some ("val-1".toList))]).lookup ("attr".toList)
        = some (some ("val-1".toList))
    ∧ matches_attr_selector ⟨.A, none, [], [("attr".toList, some ("val-1".toList))], none⟩
        ⟨"attr".toList, some (.ExactlyOrHyphen, "val".toList), false⟩ = true
    ∧ matches_attr_selector ⟨.A, none, [], [("attr".toList, some ("val-1".toList))], none⟩
        ⟨"attr".toList, some (.ExactlyOrHyphen, "val-1".toList), false⟩ = true
    ∧ matches_attr_selector ⟨.A, none, [], [("attr".toList, some ("val-1".toList))], none⟩
        ⟨"attr".toList, some (.ExactlyOrHyphen, "val1".toList), false⟩ = false := by
  refine ⟨by decide, ?_, by decide, by decide⟩
  exact (exactly_or_hyphen_case_sensitive_iff _ ("attr".toList) ("val-1".toList)
    ("val".toList) (by decide)).mpr (by decide)

/-- Claim C6: for the word-based case-insensitive operators the code (which
folds each word after splitting) computes the same result as folding the
whole attribute value before splitting, for every attribute value and
compared value. -/
theorem case_fold_commutes_with_word_split (node : DomNode) (a v val : RStr)
    (h : node.attrs.lookup a = some (some v)) :
    matches_attr_selector node ⟨a, some (.ExactlyOne, val), true⟩
        = foldThenSplitExactlyOne v val
    ∧ matches_attr_selector node ⟨a, some (.ExactlyOrHyphen, val), true⟩
        = foldThenSplitExactlyOrHyphen v val := by
  constructor
  · simp [matches_attr_selector, h, foldThenSplitExactlyOne, splitWhitespace_rustToLowercase]
  · simp [matches_attr_selector, h, foldThenSplitExactlyOrHyphen,
      splitWhitespace_rustToLowercase, List.any_map, Function.comp_def]

/-- Witness for C6 at attribute value "VAL x" and compared value "val". -/
theorem case_fold_commutes_with_word_split_witness :
    ([(("a".toList : RStr), some ("VAL x".toList))]).lookup ("a".toList)
        = some (some ("VAL x".toList))
    ∧ matches_attr_selector ⟨.A, none, [], [("a".toList, some ("VAL x".toList))], none⟩
        ⟨"a".toList, some (.ExactlyOne, "val".toList), true⟩
        = foldThenSplitExactlyOne ("VAL x".toList) ("val".toList)
    ∧ matches_attr_selector ⟨.A, none, [], [("a".toList, some ("VAL x".toList))], none⟩
        ⟨"a".toList, some (.ExactlyOrHyphen, "val".toList), true⟩
        = foldThenSplitExactlyOrHyphen ("VAL x".toList) ("val".toList) := by
  refine ⟨by decide, ?_, ?_⟩
  · exact (case_fold_commutes_with_word_split _ ("a".toList) ("VAL x".toList)
      ("val".toList) (by decide)).1
  · exact (case_fold_commutes_with_word_split _ ("a".toList) ("VAL x".toList)
      ("val".toList) (by decide)).2

/-- Claim C7: for a positive position and an An+B formula with a nonzero
coefficient, the nth-expression evaluator accepts the position exactly when
the coefficient divides position minus the signed offset and the quotient is
nonnegative (a non-integral quotient just gives false); and the 2n+1 formula
over four siblings holds at positions 1 and 3 and fails at 2 and 4. -/
theorem nth_expr_an_op_b_semantics :
    (∀ (p : Nat) (a : Int) (op : Option NthExprOp) (b : Int),
      0 < p → a ≠ 0 →
      (NthExpr.matches (.AnOpB a op b) p = true ↔
        a ∣ ((p : Int) - signedOffset op b) ∧ 0 ≤ ((p : Int) - signedOffset op b) / a))
    ∧ matches_pseudo_class_selector ⟨.A, none, [], [], some ⟨1, 4⟩⟩
        (.NthChild (.AnOpB 2 (some .Add) 1)) = .ok true
    ∧ matches_pseudo_class_selector ⟨.A, none, [], [], some ⟨2, 4⟩⟩
        (.NthChild (.AnOpB 2 (some .Add) 1)) = .ok false
    ∧ matches_pseudo_class_selector ⟨.A, none, [], [], some ⟨3, 4⟩⟩
        (.NthChild (.AnOpB 2 (some .Add) 1)) = .ok true
    ∧ matches_pseudo_class_selector ⟨.A, none, [], [], some ⟨4, 4⟩⟩
        (.NthChild (.AnOpB 2 (some .Add) 1)) = .ok false := by
  refine ⟨?_, by decide, by decide, by decide, by decide⟩
  intro p a op b hp ha
  have hif : (a == 0) = false := beq_eq_false_iff_ne.mpr ha
  simp only [NthExpr.matches, hif, Bool.false_eq_true, if_false, Bool.and_eq_true,
    beq_iff_eq, decide_eq_true_iff, Int.dvd_iff_emod_eq_zero]

/-- Witness for C7 at position 3 and the 2n+1 formula. -/
theorem nth_expr_an_op_b_semantics_witness :
    0 < 3 ∧ (2 : Int) ≠ 0
    ∧ (NthExpr.matches (.AnOpB 2 (some .Add) 1) 3 = true ↔
        (2 : Int) ∣ ((3 : Int) - signedOffset (some .Add) 1)
          ∧ 0 ≤ ((3 : Int) - signedOffset (some .Add) 1) / 2) :=
  ⟨by decide, by decide,
   nth_expr_an_op_b_semantics.1 3 2 (some .Add) 1 (by decide) (by decide)⟩

/-- Claim C8: a parentless node has effective child index 1 and satisfies
both FirstChild and LastChild. -/
theorem parentless_node_first_and_last_child (node : DomNode) (h : node.parent = none) :
    node.child_index.getD 1 = 1
    ∧ matches_pseudo_class_selector node .FirstChild = .ok true
    ∧ matches_pseudo_class_selector node .LastChild = .ok true := by
  unfold matches_pseudo_class_selector DomNode.child_index
  rw [h]
  simp

/-- Witness for C8 at a concrete parentless node. -/
theorem parentless_node_first_and_last_child_witness :
    (⟨.A, none, [], [], none⟩ : DomNode).parent = none
    ∧ ((⟨.A, none, [], [], none⟩ : DomNode).child_index.getD 1 = 1
       ∧ matches_pseudo_class_selector ⟨.A, none, [], [], none⟩ .FirstChild = .ok true
       ∧ matches_pseudo_class_selector ⟨.A, none, [], [], none⟩ .LastChild = .ok true) :=
  ⟨rfl, parentless_node_first_and_last_child ⟨.A, none, [], [], none⟩ rfl⟩

/-- Claim C9: whenever the dispatcher returns a boolean for a selector, the
Not pseudo-class returns its exact negation and the Matches pseudo-class
returns the same boolean. -/
theorem not_and_matches_pseudo_logical (node : DomNode) (sel : Selector) (b : Bool)
    (h : matchesSelector node sel = .ok b) :
    matches_pseudo_class_selector node (.Not sel) = .ok (!b)
    ∧ matches_pseudo_class_selector node (.Matches sel) = .ok b := by
  refine ⟨?_, ?_⟩ <;> simp [matches_pseudo_class_selector, h]

/-- Witness for C9 with a universal simple selector, which the dispatcher
answers with true. -/
theorem not_and_matches_pseudo_logical_witness :
    matchesSelector ⟨.A, none, [], [], none⟩ (.Simple ⟨none, none, [], true⟩) = .ok true
    ∧ (matches_pseudo_class_selector ⟨.A, none, [], [], none⟩
          (.Not (.Simple ⟨none, none, [], true⟩)) = .ok (!true)
       ∧ matches_pseudo_class_selector ⟨.A, none, [], [], none⟩
          (.Matches (.Simple ⟨none, none, [], true⟩)) = .ok true) :=
  ⟨rfl, not_and_matches_pseudo_logical ⟨.A, none, [], [], none⟩
    (.Simple ⟨none, none, [], true⟩) true rfl⟩

/-- Claim C10: in case-insensitive mode every attribute-comparison operator
compares after lowercasing both sides with the full (Unicode) Rust
lowercasing, not an ASCII-only one; in particular attribute value "Σ"
matches compared value "σ" under case-insensitive Exactly, while ASCII-only
folding would reject that pair. -/
theorem unicode_case_folding_not_ascii_only :
    (∀ (node : DomNode) (a v val : RStr), node.attrs.lookup a = some (some v) →
      (matches_attr_selector node ⟨a, some (.Exactly, val), true⟩
          = (rustToLowercase v == rustToLowercase val)
       ∧ matches_attr_selector node ⟨a, some (.ExactlyOne, val), true⟩
          = ((splitWhitespace v).map rustToLowercase).contains (rustToLowercase val)
       ∧ matches_attr_selector node ⟨a, some (.ExactlyOrHyphen, val), true⟩
          = (splitWhitespace v).any (fun s => rustToLowercase s == rustToLowercase val ||
              (rustToLowercase val ++ ['-']).isPrefixOf (rustToLowercase s))
       ∧ matches_attr_selector node ⟨a, some (.Prefixed, val), true⟩
          = (rustToLowercase val).isPrefixOf (rustToLowercase v)
       ∧ matches_attr_selector node ⟨a, some (.Suffixed, val), true⟩
          = (rustToLowercase val).isSuffixOf (rustToLowercase v)
       ∧ matches_attr_selector node ⟨a, some (.ContainsAtLeastOne, val), true⟩
          = containsSubstr (rustToLowercase v) (rustToLowercase val)))
    ∧ matches_attr_selector ⟨.A, none, [], [("a".toList, some ("Σ".toList))], none⟩
        ⟨"a".toList, some (.Exactly, "σ".toList), true⟩ = true
    ∧ asciiExactlyCaseInsensitive ("Σ".toList) ("σ".toList) = false := by
  refine ⟨?_, by decide, by decide⟩
  intro node a v val h
  refine ⟨?_, ?_, ?_, ?_, ?_, ?_⟩ <;> simp [matches_attr_selector, h]
